import Mathlib

/-!
Verification model of the starling-webhook service (Go).

The repository contains two variants of the service, both embedded here:
* a symmetric variant whose `verifySignature` computes HMAC-SHA512 over the
  raw payload and compares it, base64-encoded, with the provided header
  value using a constant-time comparison (`hmac.Equal`);
* an asymmetric variant whose `verifySignature` base64-decodes the header
  value and checks an RSA PKCS#1 v1.5 signature over SHA-256 of the payload,
  with the public key parsed once at startup by `initialiseKey`.

Byte strings are modelled as `List Nat` with every element a byte value;
Go strings appear as their UTF-8 byte sequences.  Library routines that the
service calls (crypto/sha512, crypto/sha256, crypto/hmac, crypto/subtle,
encoding/base64, encoding/json, crypto/rsa, crypto/x509) are modelled
executably below, following the documented behaviour of the Go standard
library.  External effects (the Redis publish and ping calls) are modelled
as oracle parameters together with an explicit trace of the calls issued.
-/

set_option maxRecDepth 1000000

/-- A byte string: each element is intended to lie below 256. -/
abbrev Bytes := List Nat

/-- Split a list into chunks of size `n` (the final chunk may be shorter). -/
def chunksGo (n : Nat) : Nat → List α → List (List α)
  | 0, _ => []
  | _, [] => []
  | fuel + 1, xs => xs.take n :: chunksGo n fuel (xs.drop n)

/-- Split a list into chunks of size `n`. -/
def chunks (n : Nat) (xs : List α) : List (List α) :=
  chunksGo n xs.length xs

/-- Big-endian interpretation of a byte list as a natural number. -/
def beToNat (bs : Bytes) : Nat :=
  bs.foldl (fun acc b => acc * 256 + b) 0

/-- Big-endian encoding of `v` into exactly `len` bytes (truncating high bits). -/
def natToBE (len v : Nat) : Bytes :=
  (List.range len).reverse.map (fun i => v / 256 ^ i % 256)

/-- Right-rotation of a `w`-bit word held in a `Nat`. -/
def rotr (w n x : Nat) : Nat :=
  (x >>> n ||| x <<< (w - n)) % 2 ^ w

namespace Sha512

/-- The 80 SHA-512 round constants (FIPS 180-4). -/
def K : List Nat := [
  4794697086780616226, 8158064640168781261, 13096744586834688815, 16840607885511220156,
  4131703408338449720, 6480981068601479193, 10538285296894168987, 12329834152419229976,
  15566598209576043074, 1334009975649890238, 2608012711638119052, 6128411473006802146,
  8268148722764581231, 9286055187155687089, 11230858885718282805, 13951009754708518548,
  16472876342353939154, 17275323862435702243, 1135362057144423861, 2597628984639134821,
  3308224258029322869, 5365058923640841347, 6679025012923562964, 8573033837759648693,
  10970295158949994411, 12119686244451234320, 12683024718118986047, 13788192230050041572,
  14330467153632333762, 15395433587784984357, 489312712824947311, 1452737877330783856,
  2861767655752347644, 3322285676063803686, 5560940570517711597, 5996557281743188959,
  7280758554555802590, 8532644243296465576, 9350256976987008742, 10552545826968843579,
  11727347734174303076, 12113106623233404929, 14000437183269869457, 14369950271660146224,
  15101387698204529176, 15463397548674623760, 17586052441742319658, 1182934255886127544,
  1847814050463011016, 2177327727835720531, 2830643537854262169, 3796741975233480872,
  4115178125766777443, 5681478168544905931, 6601373596472566643, 7507060721942968483,
  8399075790359081724, 8693463985226723168, 9568029438360202098, 10144078919501101548,
  10430055236837252648, 11840083180663258601, 13761210420658862357, 14299343276471374635,
  14566680578165727644, 15097957966210449927, 16922976911328602910, 17689382322260857208,
  500013540394364858, 748580250866718886, 1242879168328830382, 1977374033974150939,
  2944078676154940804, 3659926193048069267, 4368137639120453308, 4836135668995329356,
  5532061633213252278, 6448918945643986474, 6902733635092675308, 7801388544844847127]

/-- The SHA-512 initial hash value. -/
def H0 : List Nat := [
  7640891576956012808, 13503953896175478587, 4354685564936845355, 11912009170470909681,
  5840696475078001361, 11170449401992604703, 2270897969802886507, 6620516959819538809]

/-- 64-bit truncation. -/
def w64 (x : Nat) : Nat := x % 2 ^ 64

/-- SHA-512 small sigma 0. -/
def s0 (x : Nat) : Nat := Nat.xor (Nat.xor (rotr 64 1 x) (rotr 64 8 x)) (x >>> 7)

/-- SHA-512 small sigma 1. -/
def s1 (x : Nat) : Nat := Nat.xor (Nat.xor (rotr 64 19 x) (rotr 64 61 x)) (x >>> 6)

/-- SHA-512 capital Sigma 0. -/
def S0 (x : Nat) : Nat := Nat.xor (Nat.xor (rotr 64 28 x) (rotr 64 34 x)) (rotr 64 39 x)

/-- SHA-512 capital Sigma 1. -/
def S1 (x : Nat) : Nat := Nat.xor (Nat.xor (rotr 64 14 x) (rotr 64 18 x)) (rotr 64 41 x)

/-- Extend the 16 message words of a block to the 80-word schedule. -/
def schedule (ws : List Nat) : List Nat :=
  (List.range 64).foldl
    (fun acc _ =>
      let n := acc.length
      acc ++ [w64 (s1 (acc.getD (n - 2) 0) + acc.getD (n - 7) 0 +
                   s0 (acc.getD (n - 15) 0) + acc.getD (n - 16) 0)])
    ws

/-- One round of the SHA-512 compression function. -/
def round (st : List Nat) (kw : Nat × Nat) : List Nat :=
  match st with
  | [a, b, c, d, e, f, g, h] =>
    let t1 := w64 (h + S1 e + Nat.xor (Nat.land e f) (Nat.land (2 ^ 64 - 1 - e) g) + kw.1 + kw.2)
    let t2 := w64 (S0 a + Nat.xor (Nat.xor (Nat.land a b) (Nat.land a c)) (Nat.land b c))
    [w64 (t1 + t2), a, b, c, w64 (d + t1), e, f, g]
  | st => st

/-- Process one 128-byte block. -/
def block (h : List Nat) (blk : Bytes) : List Nat :=
  let ws := schedule ((chunks 8 blk).map beToNat)
  let st := (K.zip ws).foldl round h
  (h.zip st).map (fun p => w64 (p.1 + p.2))

/-- SHA-512 padding: append the byte 128, zeros, and the 128-bit bit length. -/
def pad (msg : Bytes) : Bytes :=
  let l := msg.length
  let zeros := (240 - (l + 1) % 128) % 128
  msg ++ [128] ++ List.replicate zeros 0 ++ natToBE 16 (l * 8)

/-- SHA-512 of a byte string, as 64 digest bytes. -/
def hash (msg : Bytes) : Bytes :=
  (((chunks 128 (pad msg)).foldl block H0).map (natToBE 8)).flatten

end Sha512

namespace Sha256

/-- The 64 SHA-256 round constants (FIPS 180-4). -/
def K : List Nat := [
  1116352408, 1899447441, 3049323471, 3921009573, 961987163, 1508970993,
  2453635748, 2870763221, 3624381080, 310598401, 607225278, 1426881987,
  1925078388, 2162078206, 2614888103, 3248222580, 3835390401, 4022224774,
  264347078, 604807628, 770255983, 1249150122, 1555081692, 1996064986,
  2554220882, 2821834349, 2952996808, 3210313671, 3336571891, 3584528711,
  113926993, 338241895, 666307205, 773529912, 1294757372, 1396182291,
  1695183700, 1986661051, 2177026350, 2456956037, 2730485921, 2820302411,
  3259730800, 3345764771, 3516065817, 3600352804, 4094571909, 275423344,
  430227734, 506948616, 659060556, 883997877, 958139571, 1322822218,
  1537002063, 1747873779, 1955562222, 2024104815, 2227730452, 2361852424,
  2428436474, 2756734187, 3204031479, 3329325298]

/-- The SHA-256 initial hash value. -/
def H0 : List Nat := [
  1779033703, 3144134277, 1013904242, 2773480762,
  1359893119, 2600822924, 528734635, 1541459225]

/-- 32-bit truncation. -/
def w32 (x : Nat) : Nat := x % 2 ^ 32

/-- SHA-256 small sigma 0. -/
def s0 (x : Nat) : Nat := Nat.xor (Nat.xor (rotr 32 7 x) (rotr 32 18 x)) (x >>> 3)

/-- SHA-256 small sigma 1. -/
def s1 (x : Nat) : Nat := Nat.xor (Nat.xor (rotr 32 17 x) (rotr 32 19 x)) (x >>> 10)

/-- SHA-256 capital Sigma 0. -/
def S0 (x : Nat) : Nat := Nat.xor (Nat.xor (rotr 32 2 x) (rotr 32 13 x)) (rotr 32 22 x)

/-- SHA-256 capital Sigma 1. -/
def S1 (x : Nat) : Nat := Nat.xor (Nat.xor (rotr 32 6 x) (rotr 32 11 x)) (rotr 32 25 x)

/-- Extend the 16 message words of a block to the 64-word schedule. -/
def schedule (ws : List Nat) : List Nat :=
  (List.range 48).foldl
    (fun acc _ =>
      let n := acc.length
      acc ++ [w32 (s1 (acc.getD (n - 2) 0) + acc.getD (n - 7) 0 +
                   s0 (acc.getD (n - 15) 0) + acc.getD (n - 16) 0)])
    ws

/-- One round of the SHA-256 compression function. -/
def round (st : List Nat) (kw : Nat × Nat) : List Nat :=
  match st with
  | [a, b, c, d, e, f, g, h] =>
    let t1 := w32 (h + S1 e + Nat.xor (Nat.land e f) (Nat.land (2 ^ 32 - 1 - e) g) + kw.1 + kw.2)
    let t2 := w32 (S0 a + Nat.xor (Nat.xor (Nat.land a b) (Nat.land a c)) (Nat.land b c))
    [w32 (t1 + t2), a, b, c, w32 (d + t1), e, f, g]
  | st => st

/-- Process one 64-byte block. -/
def block (h : List Nat) (blk : Bytes) : List Nat :=
  let ws := schedule ((chunks 4 blk).map beToNat)
  let st := (K.zip ws).foldl round h
  (h.zip st).map (fun p => w32 (p.1 + p.2))

/-- SHA-256 padding: append the byte 128, zeros, and the 64-bit bit length. -/
def pad (msg : Bytes) : Bytes :=
  let l := msg.length
  let zeros := (120 - (l + 1) % 64) % 64
  msg ++ [128] ++ List.replicate zeros 0 ++ natToBE 8 (l * 8)

/-- SHA-256 of a byte string, as 32 digest bytes. -/
def hash (msg : Bytes) : Bytes :=
  (((chunks 64 (pad msg)).foldl block H0).map (natToBE 4)).flatten

end Sha256

/-! ### encoding/base64, StdEncoding (standard alphabet, padded)

Models `base64.StdEncoding.EncodeToString` and
`base64.StdEncoding.DecodeString` from the Go standard library: the standard
alphabet `A-Z a-z 0-9 + /` with `=` padding; the decoder ignores carriage
returns and newlines, requires four-character quanta with padding only in
the final quantum, and (being non-strict) does not reject non-zero unused
trailing bits. -/

/-- The standard base64 alphabet, as byte values. -/
def b64Alphabet : Bytes :=
  "ABCDEFGHIJKLMNOPQRSTUVWXYZabcdefghijklmnopqrstuvwxyz0123456789+/".toList.map Char.toNat

/-- Encode one input chunk of 1–3 bytes into 4 output characters. -/
def base64EncodeChunk (c : Bytes) : Bytes :=
  match c with
  | [a, b, d] =>
    [b64Alphabet.getD (a >>> 2) 0, b64Alphabet.getD ((a % 4) <<< 4 ||| b >>> 4) 0,
     b64Alphabet.getD ((b % 16) <<< 2 ||| d >>> 6) 0, b64Alphabet.getD (d % 64) 0]
  | [a, b] =>
    [b64Alphabet.getD (a >>> 2) 0, b64Alphabet.getD ((a % 4) <<< 4 ||| b >>> 4) 0,
     b64Alphabet.getD ((b % 16) <<< 2) 0, 61]
  | [a] =>
    [b64Alphabet.getD (a >>> 2) 0, b64Alphabet.getD ((a % 4) <<< 4) 0, 61, 61]
  | _ => []

/-- `base64.StdEncoding.EncodeToString`, over byte strings. -/
def base64Encode (bs : Bytes) : Bytes :=
  ((chunks 3 bs).map base64EncodeChunk).flatten

/-- Index of a byte in the standard base64 alphabet. -/
def b64Index (c : Nat) : Option Nat :=
  b64Alphabet.indexOf? c

/-- Decode a full (unpadded) 4-character quantum into 3 bytes. -/
def base64DecodeFull (g : Bytes) : Option Bytes :=
  match g with
  | [c0, c1, c2, c3] => do
    let a ← b64Index c0
    let b ← b64Index c1
    let c ← b64Index c2
    let d ← b64Index c3
    pure [a <<< 2 ||| b >>> 4, (b % 16) <<< 4 ||| c >>> 2, (c % 4) <<< 6 ||| d]
  | _ => none

/-- Decode the final 4-character quantum, which may carry `=` padding. -/
def base64DecodeLast (g : Bytes) : Option Bytes :=
  match g with
  | [c0, c1, 61, 61] => do
    let a ← b64Index c0
    let b ← b64Index c1
    pure [a <<< 2 ||| b >>> 4]
  | [c0, c1, c2, 61] => do
    let a ← b64Index c0
    let b ← b64Index c1
    let c ← b64Index c2
    pure [a <<< 2 ||| b >>> 4, (b % 16) <<< 4 ||| c >>> 2]
  | g => base64DecodeFull g

/-- Decode a sequence of 4-character quanta; `=` may appear only at the end. -/
def base64DecodeGroups : List Bytes → Option Bytes
  | [] => some []
  | [g] => base64DecodeLast g
  | g :: gs => do
    let b ← base64DecodeFull g
    let rest ← base64DecodeGroups gs
    pure (b ++ rest)

/-- `base64.StdEncoding.DecodeString`, over byte strings; `none` models the
decode error. -/
def base64Decode (s : Bytes) : Option Bytes :=
  let t := s.filter (fun c => c ≠ 10 ∧ c ≠ 13)
  if t.length % 4 = 0 then base64DecodeGroups (chunks 4 t) else none

/-! ### crypto/hmac and crypto/subtle -/

/-- XOR a pad byte into each byte of a block. -/
def xorPad (p : Nat) (bs : Bytes) : Bytes := bs.map (fun b => b ^^^ p)

/-- HMAC-SHA512 (crypto/hmac with sha512.New): block size 128; a key longer
than the block is first hashed; the key is zero-padded to the block size. -/
def hmacSha512 (key msg : Bytes) : Bytes :=
  let k0 := if key.length > 128 then Sha512.hash key else key
  let k := k0 ++ List.replicate (128 - k0.length) 0
  Sha512.hash (xorPad 92 k ++ Sha512.hash (xorPad 54 k ++ msg))

/-- `subtle.ConstantTimeCompare` (used by `hmac.Equal`): false on length
mismatch, otherwise the OR of the bytewise XORs is compared with zero after
traversing both inputs in full. -/
def constantTimeCompare (x y : Bytes) : Bool :=
  if x.length ≠ y.length then false
  else ((x.zip y).foldl (fun v p => v ||| (p.1 ^^^ p.2)) 0) == 0

/-- Instrumented form of `constantTimeCompare`: the same fold also counts the
byte comparisons performed, so that the absence of an early exit is visible
in the model. -/
def constantTimeCompareTrace (x y : Bytes) : Bool × Nat :=
  if x.length ≠ y.length then (false, 0)
  else
    let r := (x.zip y).foldl (fun vn p => (vn.1 ||| (p.1 ^^^ p.2), vn.2 + 1)) (0, 0)
    (r.1 == 0, r.2)

/-! ### encoding/json

A model of the parts of `encoding/json` exercised by `json.Unmarshal(body,
&event)`: full syntax validation of the input (the scanner), string escape
decoding, and decoding into a struct — JSON `null` leaves the struct
untouched, a JSON object assigns fields matched by tag name (exact or
ASCII-case-insensitive), unknown keys are ignored, a value of the wrong
type for a string field is an unmarshalling error, and any other top-level
value is an unmarshalling error.  Numbers are kept as validated tokens;
no claim observes their value. -/

/-- A parsed JSON value.  Strings are kept as decoded byte strings, numbers
as their source tokens. -/
inductive Json where
  | null
  | bool (b : Bool)
  | num (tok : Bytes)
  | str (s : Bytes)
  | arr (elems : List Json)
  | obj (members : List (Bytes × Json))
deriving Repr

/-- ASCII decimal digit test. -/
def isDigit (c : Nat) : Bool := 48 ≤ c && c ≤ 57

/-- Drop leading JSON whitespace (space, tab, newline, carriage return). -/
def skipWs (s : Bytes) : Bytes :=
  s.dropWhile (fun c => c = 32 || c = 9 || c = 10 || c = 13)

/-- Value of an ASCII hex digit. -/
def hexVal (c : Nat) : Option Nat :=
  if 48 ≤ c && c ≤ 57 then some (c - 48)
  else if 65 ≤ c && c ≤ 70 then some (c - 55)
  else if 97 ≤ c && c ≤ 102 then some (c - 87)
  else none

/-- UTF-8 encoding of a code point. -/
def utf8Encode (n : Nat) : Bytes :=
  if n < 128 then [n]
  else if n < 2048 then [192 ||| n >>> 6, 128 ||| n % 64]
  else if n < 65536 then [224 ||| n >>> 12, 128 ||| (n >>> 6) % 64, 128 ||| n % 64]
  else [240 ||| n >>> 18, 128 ||| (n >>> 12) % 64, 128 ||| (n >>> 6) % 64, 128 ||| n % 64]

/-- Parse the four hex digits of a `\u` escape. -/
def parseHex4 (s : Bytes) : Option (Nat × Bytes) :=
  match s with
  | h1 :: h2 :: h3 :: h4 :: rest => do
    let a ← hexVal h1
    let b ← hexVal h2
    let c ← hexVal h3
    let d ← hexVal h4
    pure (a <<< 12 ||| b <<< 8 ||| c <<< 4 ||| d, rest)
  | _ => none

/-- Parse the remainder of a JSON string (the opening quote already
consumed), decoding escapes; invalid surrogate halves become U+FFFD as in
Go. -/
def parseStringGo : Nat → Bytes → Option (Bytes × Bytes)
  | 0, _ => none
  | fuel + 1, input =>
    match input with
    | [] => none
    | 34 :: rest => some ([], rest)
    | 92 :: esc =>
      match esc with
      | 34 :: r => (parseStringGo fuel r).map (fun p => (34 :: p.1, p.2))
      | 92 :: r => (parseStringGo fuel r).map (fun p => (92 :: p.1, p.2))
      | 47 :: r => (parseStringGo fuel r).map (fun p => (47 :: p.1, p.2))
      | 98 :: r => (parseStringGo fuel r).map (fun p => (8 :: p.1, p.2))
      | 102 :: r => (parseStringGo fuel r).map (fun p => (12 :: p.1, p.2))
      | 110 :: r => (parseStringGo fuel r).map (fun p => (10 :: p.1, p.2))
      | 114 :: r => (parseStringGo fuel r).map (fun p => (13 :: p.1, p.2))
      | 116 :: r => (parseStringGo fuel r).map (fun p => (9 :: p.1, p.2))
      | 117 :: r =>
        match parseHex4 r with
        | none => none
        | some (n, r1) =>
          if 55296 ≤ n && n < 56320 then
            match r1 with
            | 92 :: 117 :: r2 =>
              match parseHex4 r2 with
              | some (m, r3) =>
                if 56320 ≤ m && m < 57344 then
                  let cp := 65536 + (n - 55296) <<< 10 + (m - 56320)
                  (parseStringGo fuel r3).map (fun p => (utf8Encode cp ++ p.1, p.2))
                else (parseStringGo fuel r1).map (fun p => (utf8Encode 65533 ++ p.1, p.2))
              | none => (parseStringGo fuel r1).map (fun p => (utf8Encode 65533 ++ p.1, p.2))
            | _ => (parseStringGo fuel r1).map (fun p => (utf8Encode 65533 ++ p.1, p.2))
          else if 56320 ≤ n && n < 57344 then
            (parseStringGo fuel r1).map (fun p => (utf8Encode 65533 ++ p.1, p.2))
          else
            (parseStringGo fuel r1).map (fun p => (utf8Encode n ++ p.1, p.2))
      | _ => none
    | c :: rest =>
      if c < 32 then none
      else (parseStringGo fuel rest).map (fun p => (c :: p.1, p.2))

/-- Parse a JSON string including its opening quote. -/
def parseString (s : Bytes) : Option (Bytes × Bytes) :=
  match s with
  | 34 :: rest => parseStringGo (rest.length + 1) rest
  | _ => none

/-- Parse a JSON number starting at `s`; returns its token and the rest. -/
def parseNumber (s : Bytes) : Option (Bytes × Bytes) :=
  let core : Bytes → Option Bytes := fun s1 =>
    match s1 with
    | 48 :: r => some r
    | c :: r => if isDigit c && c ≠ 48 then some (r.dropWhile isDigit) else none
    | [] => none
  let frac : Bytes → Option Bytes := fun s2 =>
    match s2 with
    | 46 :: r =>
      match r with
      | c :: _ => if isDigit c then some (r.dropWhile isDigit) else none
      | [] => none
    | _ => some s2
  let expPart : Bytes → Option Bytes := fun s3 =>
    match s3 with
    | c :: r =>
      if c = 101 || c = 69 then
        let r1 := match r with
          | 43 :: r2 => r2
          | 45 :: r2 => r2
          | _ => r
        match r1 with
        | d :: _ => if isDigit d then some (r1.dropWhile isDigit) else none
        | [] => none
      else some s3
    | [] => some s3
  let s1 := match s with
    | 45 :: r => r
    | _ => s
  match core s1 with
  | none => none
  | some r2 =>
    match frac r2 with
    | none => none
    | some r3 =>
      match expPart r3 with
      | none => none
      | some rest => some (s.take (s.length - rest.length), rest)

mutual

/-- Parse one JSON value (fuel bounds the nesting of mutual calls). -/
def parseVal : Nat → Bytes → Option (Json × Bytes)
  | 0, _ => none
  | fuel + 1, input =>
    match skipWs input with
    | [] => none
    | 110 :: r => if r.take 3 = [117, 108, 108] then some (.null, r.drop 3) else none
    | 116 :: r => if r.take 3 = [114, 117, 101] then some (.bool true, r.drop 3) else none
    | 102 :: r => if r.take 4 = [97, 108, 115, 101] then some (.bool false, r.drop 4) else none
    | 34 :: r => (parseStringGo (r.length + 1) r).map (fun p => (.str p.1, p.2))
    | 123 :: r =>
      match skipWs r with
      | 125 :: r1 => some (.obj [], r1)
      | _ => (parseMembers fuel r).map (fun p => (.obj p.1, p.2))
    | 91 :: r =>
      match skipWs r with
      | 93 :: r1 => some (.arr [], r1)
      | _ => (parseElems fuel r).map (fun p => (.arr p.1, p.2))
    | c :: r =>
      if c = 45 || isDigit c then (parseNumber (c :: r)).map (fun p => (.num p.1, p.2))
      else none

/-- Parse object members (after `{` or `,`), through the closing `}`. -/
def parseMembers : Nat → Bytes → Option (List (Bytes × Json) × Bytes)
  | 0, _ => none
  | fuel + 1, input =>
    match skipWs input with
    | 34 :: r =>
      match parseStringGo (r.length + 1) r with
      | none => none
      | some (key, r1) =>
        match skipWs r1 with
        | 58 :: r2 =>
          match parseVal fuel r2 with
          | none => none
          | some (v, r3) =>
            match skipWs r3 with
            | 44 :: r4 => (parseMembers fuel r4).map (fun p => ((key, v) :: p.1, p.2))
            | 125 :: r4 => some ([(key, v)], r4)
            | _ => none
        | _ => none
    | _ => none

/-- Parse array elements (after `[` or `,`), through the closing `]`. -/
def parseElems : Nat → Bytes → Option (List Json × Bytes)
  | 0, _ => none
  | fuel + 1, input =>
    match parseVal fuel input with
    | none => none
    | some (v, r) =>
      match skipWs r with
      | 44 :: r1 => (parseElems fuel r1).map (fun p => (v :: p.1, p.2))
      | 93 :: r1 => some ([v], r1)
      | _ => none

end

/-- Parse a complete JSON document: one value, with only whitespace after
it (`json.Unmarshal` rejects trailing data). -/
def parseJson (s : Bytes) : Option Json :=
  match parseVal (s.length + 1) s with
  | some (v, rest) => if skipWs rest = [] then some v else none
  | none => none

/-! ### The webhook envelope -/

/-- `WebhookEvent`: the envelope struct.  String fields hold decoded byte
strings (Go zero value: empty); `Content` models the `json.RawMessage`
field (Go zero value: nil, here `none`). -/
structure WebhookEvent where
  EventType : Bytes := []
  Timestamp : Bytes := []
  Content : Option Json := none
  AccountHolderUID : Bytes := []
  EventID : Bytes := []
deriving Repr

/-- ASCII lower-casing of a byte. -/
def asciiLower (c : Nat) : Nat := if 65 ≤ c && c ≤ 90 then c + 32 else c

/-- Case-insensitive tag match, as in `encoding/json` field resolution. -/
def eqFold (a b : Bytes) : Bool := a.map asciiLower == b.map asciiLower

/-- Byte string of an ASCII field tag. -/
def tagBytes (s : String) : Bytes := s.toList.map Char.toNat

/-- Decode a JSON value into a string field: a string assigns, `null` is a
no-op, anything else is an `UnmarshalTypeError`. -/
def assignStr (v : Json) (old : Bytes) : Except String Bytes :=
  match v with
  | .str s => .ok s
  | .null => .ok old
  | _ => .error "json: cannot unmarshal value into Go struct field of type string"

/-- Apply one JSON object member to the envelope: the four string fields by
tag (exact or case-insensitive), `content` capturing any raw value, unknown
keys ignored. -/
def setField (ev : WebhookEvent) (key : Bytes) (v : Json) : Except String WebhookEvent :=
  if eqFold key (tagBytes "eventType") then
    (assignStr v ev.EventType).map (fun s => { ev with EventType := s })
  else if eqFold key (tagBytes "timestamp") then
    (assignStr v ev.Timestamp).map (fun s => { ev with Timestamp := s })
  else if eqFold key (tagBytes "content") then
    .ok { ev with Content := some v }
  else if eqFold key (tagBytes "accountHolderUid") then
    (assignStr v ev.AccountHolderUID).map (fun s => { ev with AccountHolderUID := s })
  else if eqFold key (tagBytes "eventId") then
    (assignStr v ev.EventID).map (fun s => { ev with EventID := s })
  else .ok ev

/-- `json.Unmarshal(body, &event)`: syntax validation, then `null` leaves
the zero-valued struct, an object assigns matching fields in order, any
other top-level value is a type error. -/
def unmarshalEvent (body : Bytes) : Except String WebhookEvent :=
  match parseJson body with
  | none => .error "invalid JSON"
  | some .null => .ok {}
  | some (.obj kvs) =>
    kvs.foldl (fun acc kv => acc >>= fun ev => setField ev kv.1 kv.2) (.ok {})
  | some _ => .error "json: cannot unmarshal value into Go value of type main.WebhookEvent"

/-! ### The HTTP handlers

`handleWebhook` is byte-for-byte the same control flow in both variants of
the service, differing only in the `verifySignature` they call, so it is
modelled once, parameterised by the verifier.  External effects are
explicit: `bodyRead` is the outcome of `io.ReadAll(r.Body)`, `publishOk`
the outcome of the Redis `Publish` call, and the outcome records the
payload of every `Publish` call issued. -/

/-- An inbound HTTP request as the handler observes it: the method, the
outcome of reading the body, and the `X-Hook-Signature` header value. -/
structure HttpRequest where
  method : String
  bodyRead : Except String Bytes
  signature : Bytes
deriving Repr

/-- Outcome of a webhook request: response status and body, plus the
payloads passed to Redis `Publish`, in order. -/
structure WebhookOutcome where
  status : Nat
  respBody : String
  published : List Bytes
deriving Repr, DecidableEq

/-- `handleWebhook`, parameterised by the signature verifier. -/
def handleWebhookCore (verify : Bytes → Bytes → Bool) (publishOk : Bool)
    (req : HttpRequest) : WebhookOutcome :=
  if req.method ≠ "POST" then ⟨405, "Method not allowed\n", []⟩
  else
    match req.bodyRead with
    | .error _ => ⟨400, "Bad request\n", []⟩
    | .ok body =>
      if ¬ verify body req.signature then ⟨401, "Unauthorized\n", []⟩
      else
        match unmarshalEvent body with
        | .error _ => ⟨400, "Bad request\n", []⟩
        | .ok _ =>
          if publishOk then ⟨200, "OK", [body]⟩
          else ⟨500, "Internal server error\n", [body]⟩

/-- Outcome of the Redis `Ping` issued by `handleHealth`: success, an
error, or expiry of the 2-second context deadline (which `Ping` surfaces
as an error). -/
inductive PingOutcome where
  | ok
  | err
  | timeout
deriving Repr, DecidableEq

/-- Outcome of a health request: the response, the context-timeout bound
(in seconds) of each `Ping` issued, and the payloads of any `Publish`
calls (none: the handler has no other side effect). -/
structure HealthOutcome where
  status : Nat
  respBody : String
  pingTimeouts : List Nat
  published : List Bytes
deriving Repr, DecidableEq

/-- `handleHealth`: ping Redis under a 2-second context timeout; a non-nil
error (including deadline expiry) yields 503, success yields 200 `OK`. -/
def handleHealth (ping : PingOutcome) : HealthOutcome :=
  match ping with
  | .ok => ⟨200, "OK", [2], []⟩
  | .err => ⟨503, "Service unavailable\n", [2], []⟩
  | .timeout => ⟨503, "Service unavailable\n", [2], []⟩

namespace Hmac

/-- Configuration of the symmetric (HMAC) variant.  `WebhookSecret` is a Go
string used as a byte key, modelled as its bytes; the empty string is `[]`. -/
structure Config where
  Port : String
  RedisAddr : String
  RedisChannel : String
  WebhookSecret : Bytes
deriving Repr, DecidableEq

/-- `verifySignature` of the symmetric variant: empty secret accepts
anything; otherwise the header value is compared by `hmac.Equal` with the
base64 encoding of HMAC-SHA512 over the exact payload bytes.  The provided
signature is never base64-decoded. -/
def verifySignature (cfg : Config) (payload signature : Bytes) : Bool :=
  if cfg.WebhookSecret = [] then true
  else constantTimeCompare signature (base64Encode (hmacSha512 cfg.WebhookSecret payload))

/-- `handleWebhook` of the symmetric variant. -/
def handleWebhook (cfg : Config) (publishOk : Bool) (req : HttpRequest) : WebhookOutcome :=
  handleWebhookCore (verifySignature cfg) publishOk req

end Hmac

namespace Rsa

/-- Configuration of the asymmetric (RSA) variant.  `WebhookSecret` holds a
base64-encoded DER public key. -/
structure Config where
  Port : String
  RedisAddr : String
  RedisChannel : String
  WebhookSecret : Bytes
  RedisPassword : String
deriving Repr, DecidableEq

/-- `rsa.PublicKey`: modulus and public exponent. -/
structure RSAPublicKey where
  n : Nat
  e : Nat
deriving Repr, DecidableEq

/-- The served state of the asymmetric variant: `main` runs
`initialiseKey` before registering handlers, so a serving process holds a
parsed key. -/
structure Server where
  config : Config
  publicKey : RSAPublicKey
deriving Repr, DecidableEq

/-- Fuel-based byte-length recursion (structural, so it evaluates). -/
def byteLenGo : Nat → Nat → Nat
  | 0, _ => 0
  | fuel + 1, n => if n = 0 then 0 else byteLenGo fuel (n / 256) + 1

/-- Byte length of a modulus, as `rsa.PublicKey.Size()`. -/
def byteLen (n : Nat) : Nat := byteLenGo n n

/-- The PKCS#1 v1.5 DigestInfo prefix for SHA-256 (crypto/rsa
hashPrefixes). -/
def sha256Prefix : Bytes :=
  [48, 49, 48, 13, 6, 9, 96, 134, 72, 1, 101,
   3, 4, 2, 1, 5, 0, 4, 32]

/-- `rsa.VerifyPKCS1v15` for SHA-256: every failure (bad exponent, short
modulus, wrong signature length, signature value out of range, or a
padding/digest mismatch after the public-key operation) is an ordinary
`false`; the Go function returns `ErrVerification`, it does not panic. -/
def rsaVerifyPKCS1v15 (pk : RSAPublicKey) (hashed sig : Bytes) : Bool :=
  let tLen := sha256Prefix.length + hashed.length
  let k := byteLen pk.n
  if pk.e < 2 then false
  else if 2 ^ 31 ≤ pk.e then false
  else if k < tLen + 11 then false
  else if sig.length ≠ k then false
  else
    let m := beToNat sig
    if pk.n ≤ m then false
    else
      let em := natToBE k (m ^ pk.e % pk.n)
      em == [0, 1] ++ List.replicate (k - tLen - 3) 255 ++ [0] ++ sha256Prefix ++ hashed

/-- `verifySignature` of the asymmetric variant: empty secret accepts
anything; otherwise base64-decode the header value (failure is `false`)
and check the RSA PKCS#1 v1.5 signature over SHA-256 of the payload. -/
def verifySignature (s : Server) (payload signature : Bytes) : Bool :=
  if s.config.WebhookSecret = [] then true
  else
    match base64Decode signature with
    | none => false
    | some sigBytes => rsaVerifyPKCS1v15 s.publicKey (Sha256.hash payload) sigBytes

/-- `handleWebhook` of the asymmetric variant. -/
def handleWebhook (s : Server) (publishOk : Bool) (req : HttpRequest) : WebhookOutcome :=
  handleWebhookCore (verifySignature s) publishOk req

/-- Read one DER TLV (tag, contents, rest); definite lengths only, as in
DER. -/
def readTLV (bs : Bytes) : Option (Nat × Bytes × Bytes) :=
  match bs with
  | t :: l :: rest =>
    if l < 128 then
      if rest.length < l then none else some (t, rest.take l, rest.drop l)
    else
      let nlen := l - 128
      if nlen = 0 || nlen > 4 || rest.length < nlen then none
      else
        let len := beToNat (rest.take nlen)
        let body := rest.drop nlen
        if body.length < len then none else some (t, body.take len, body.drop len)
  | _ => none

/-- DER contents of OBJECT IDENTIFIER 1.2.840.113549.1.1.1 (rsaEncryption). -/
def oidRSA : Bytes := [42, 134, 72, 134, 247, 13, 1, 1, 1]

/-- DER contents of the other public-key algorithm OIDs `x509` knows
(id-ecPublicKey, Ed25519, X25519, DSA). -/
def oidOther : List Bytes :=
  [[42, 134, 72, 206, 61, 2, 1], [43, 101, 112],
   [43, 101, 110], [42, 134, 72, 206, 56, 4, 1]]

/-- Result of `x509.ParsePKIXPublicKey`: an RSA key or a key of another
supported algorithm. -/
inductive PublicKey where
  | rsa (pk : RSAPublicKey)
  | other
deriving Repr, DecidableEq

/-- A DER INTEGER interpreted as a non-negative number (a set sign bit is
rejected, as `x509` rejects negative RSA parameters). -/
def derNonNegInt (bs : Bytes) : Option Nat :=
  match bs with
  | [] => none
  | b :: _ => if 128 ≤ b then none else some (beToNat bs)

/-- Parse a PKCS#1 RSAPublicKey structure (SEQUENCE of two INTEGERs). -/
def parseRSAKey (bs : Bytes) : Except String RSAPublicKey :=
  match readTLV bs with
  | some (48, body, []) =>
    match readTLV body with
    | some (2, nB, rest) =>
      match readTLV rest with
      | some (2, eB, []) =>
        match derNonNegInt nB, derNonNegInt eB with
        | some n, some e =>
          if n = 0 then .error "x509: RSA modulus is not a positive number"
          else .ok ⟨n, e⟩
        | _, _ => .error "x509: invalid RSA public key"
      | _ => .error "x509: invalid RSA public key"
    | _ => .error "x509: invalid RSA public key"
  | _ => .error "x509: invalid RSA public key"

/-- `x509.ParsePKIXPublicKey`: a SubjectPublicKeyInfo SEQUENCE holding an
AlgorithmIdentifier and a BIT STRING.  An RSA OID parses the key material;
the other supported algorithm OIDs yield a non-RSA key (their key material
is not modelled further, as `initialiseKey` rejects every non-RSA result);
anything else is an error. -/
def parsePKIXPublicKey (der : Bytes) : Except String PublicKey :=
  match readTLV der with
  | some (48, spki, []) =>
    match readTLV spki with
    | some (48, algid, keyRest) =>
      match readTLV algid with
      | some (6, oid, _params) =>
        match readTLV keyRest with
        | some (3, bits, []) =>
          match bits with
          | 0 :: keyDer =>
            if oid = oidRSA then (parseRSAKey keyDer).map PublicKey.rsa
            else if oid ∈ oidOther then .ok .other
            else .error "x509: unknown public key algorithm"
          | _ => .error "x509: invalid public key asn1 bit string"
        | _ => .error "x509: failed to parse public key"
      | _ => .error "x509: failed to parse public key"
    | _ => .error "x509: failed to parse public key"
  | _ => .error "x509: failed to parse public key"

/-- `initialiseKey`: base64-decode the configured secret, parse it as a
PKIX public key, and require an RSA key; any failure is an error. -/
def initialiseKey (cfg : Config) : Except String RSAPublicKey :=
  match base64Decode cfg.WebhookSecret with
  | none => .error "illegal base64 data"
  | some der =>
    match parsePKIXPublicKey der with
    | .error e => .error e
    | .ok (.rsa pk) => .ok pk
    | .ok .other => .error "not an RSA public key"

/-- Outcome of process startup: `log.Fatalf` (process exit, no HTTP
served) or a serving process. -/
inductive StartupOutcome where
  | fatal (msg : String)
  | serving (s : Server)
deriving Repr, DecidableEq

/-- `main` of the asymmetric variant, up to the point the HTTP server is
started: `NewServer` (whose Redis connection test is the `redisOk` oracle)
then `initialiseKey`; a failure of either is `log.Fatalf`, and handlers
are only registered after both succeed. -/
def mainStartup (cfg : Config) (redisOk : Bool) : StartupOutcome :=
  if ¬ redisOk then .fatal "Failed to create server"
  else
    match initialiseKey cfg with
    | .error e => .fatal e
    | .ok pk => .serving ⟨cfg, pk⟩

end Rsa


/-! ### Supporting lemmas -/

theorem nat_or_eq_zero (a b : Nat) : a ||| b = 0 ↔ a = 0 ∧ b = 0 := by
  constructor
  · intro h
    refine ⟨Nat.eq_of_testBit_eq fun i => ?_, Nat.eq_of_testBit_eq fun i => ?_⟩ <;>
      · have hb := congrArg (fun x => Nat.testBit x i) h
        simp [Nat.testBit_or] at hb
        simp [hb]
  · rintro ⟨rfl, rfl⟩
    rfl

theorem foldl_or_eq_zero (l : List (Nat × Nat)) (acc : Nat) :
    l.foldl (fun v p => v ||| (p.1 ^^^ p.2)) acc = 0 ↔ acc = 0 ∧ ∀ p ∈ l, p.1 = p.2 := by
  induction l generalizing acc with
  | nil => simp
  | cons hd tl ih =>
    simp only [List.foldl_cons, List.mem_cons, ih, nat_or_eq_zero, Nat.xor_eq_zero]
    constructor
    · rintro ⟨⟨h1, h2⟩, h3⟩
      refine ⟨h1, fun p hp => ?_⟩
      rcases hp with rfl | hp
      · exact h2
      · exact h3 p hp
    · rintro ⟨h1, h2⟩
      exact ⟨⟨h1, h2 hd (Or.inl rfl)⟩, fun p hp => h2 p (Or.inr hp)⟩

theorem zip_forall_eq (x : Bytes) : ∀ (y : Bytes), x.length = y.length →
    ((∀ p ∈ x.zip y, p.1 = p.2) ↔ x = y) := by
  induction x with
  | nil =>
    intro y h
    cases y with
    | nil => simp
    | cons b y => simp at h
  | cons a x ih =>
    intro y h
    cases y with
    | nil => simp at h
    | cons b y =>
      have hlen : x.length = y.length := by simpa using h
      simp only [List.zip_cons_cons, List.mem_cons, List.cons.injEq]
      constructor
      · intro hall
        refine ⟨hall (a, b) (Or.inl rfl), (ih y hlen).1 fun p hp => hall p (Or.inr hp)⟩
      · rintro ⟨rfl, rfl⟩
        intro p hp
        rcases hp with rfl | hp
        · rfl
        · exact ((ih x rfl).2 rfl) p hp

theorem constantTimeCompare_eq_true_iff (x y : Bytes) :
    constantTimeCompare x y = true ↔ x = y := by
  unfold constantTimeCompare
  by_cases h : x.length = y.length
  · rw [if_neg (by simp [h])]
    simp only [beq_iff_eq]
    rw [foldl_or_eq_zero]
    have hz := zip_forall_eq x y h
    constructor
    · intro hc
      exact hz.1 hc.2
    · intro hxy
      exact ⟨rfl, hz.2 hxy⟩
  · rw [if_pos h]
    simp only [Bool.false_eq_true, false_iff]
    intro hxy
    exact h (by rw [hxy])

theorem foldl_or_count (l : List (Nat × Nat)) (init : Nat × Nat) :
    l.foldl (fun vn p => (vn.1 ||| (p.1 ^^^ p.2), vn.2 + 1)) init =
      (l.foldl (fun v p => v ||| (p.1 ^^^ p.2)) init.1, init.2 + l.length) := by
  induction l generalizing init with
  | nil => simp
  | cons hd tl ih =>
    simp only [List.foldl_cons, ih, List.length_cons, Prod.mk.injEq]
    exact ⟨trivial, by omega⟩

theorem ctTrace_fst (x y : Bytes) :
    (constantTimeCompareTrace x y).1 = constantTimeCompare x y := by
  unfold constantTimeCompareTrace constantTimeCompare
  by_cases h : x.length = y.length
  · rw [if_neg (by simp [h]), if_neg (by simp [h])]
    simp [foldl_or_count]
  · rw [if_pos h, if_pos h]

theorem ctTrace_steps (x y : Bytes) (h : x.length = y.length) :
    (constantTimeCompareTrace x y).2 = x.length := by
  unfold constantTimeCompareTrace
  rw [if_neg (by simp [h])]
  simp [foldl_or_count, List.length_zip, h]


/-! ### The claims -/

/-- C1: the webhook handler follows the fixed pipeline — non-POST method
gives 405 with no other processing; a body-read failure gives 400;
signature verification runs over the exact raw body bytes strictly before
any JSON parsing and a failure gives 401 whatever the body holds; a JSON
decode failure gives 400; a publish failure gives 500; success gives 200
with body `OK` — and each failure is terminal (no publish is recorded on
any of the failure paths before publish). -/
theorem webhook_pipeline_order (verify : Bytes → Bytes → Bool) (publishOk : Bool)
    (req : HttpRequest) :
    (req.method ≠ "POST" →
      handleWebhookCore verify publishOk req = ⟨405, "Method not allowed\n", []⟩)
  ∧ (∀ e, req.method = "POST" → req.bodyRead = .error e →
      handleWebhookCore verify publishOk req = ⟨400, "Bad request\n", []⟩)
  ∧ (∀ body, req.method = "POST" → req.bodyRead = .ok body →
      verify body req.signature = false →
      handleWebhookCore verify publishOk req = ⟨401, "Unauthorized\n", []⟩)
  ∧ (∀ body e, req.method = "POST" → req.bodyRead = .ok body →
      verify body req.signature = true → unmarshalEvent body = .error e →
      handleWebhookCore verify publishOk req = ⟨400, "Bad request\n", []⟩)
  ∧ (∀ body ev, req.method = "POST" → req.bodyRead = .ok body →
      verify body req.signature = true → unmarshalEvent body = .ok ev →
      publishOk = false →
      handleWebhookCore verify publishOk req = ⟨500, "Internal server error\n", [body]⟩)
  ∧ (∀ body ev, req.method = "POST" → req.bodyRead = .ok body →
      verify body req.signature = true → unmarshalEvent body = .ok ev →
      publishOk = true →
      handleWebhookCore verify publishOk req = ⟨200, "OK", [body]⟩) := by
  refine ⟨?_, ?_, ?_, ?_, ?_, ?_⟩
  · intro hm
    simp [handleWebhookCore, hm]
  · intro e hm hb
    simp [handleWebhookCore, hm, hb]
  · intro body hm hb hv
    simp [handleWebhookCore, hm, hb, hv]
  · intro body e hm hb hv hj
    simp [handleWebhookCore, hm, hb, hv, hj]
  · intro body ev hm hb hv hj hp
    simp [handleWebhookCore, hm, hb, hv, hj, hp]
  · intro body ev hm hb hv hj hp
    simp [handleWebhookCore, hm, hb, hv, hj, hp]

/-- Witness for C1: each stage of the pipeline exercised at a concrete
request. -/
theorem webhook_pipeline_order_witness :
    handleWebhookCore (fun _ _ => true) true ⟨"GET", .ok [], []⟩
      = ⟨405, "Method not allowed\n", []⟩
  ∧ handleWebhookCore (fun _ _ => true) true ⟨"POST", .error "io", []⟩
      = ⟨400, "Bad request\n", []⟩
  ∧ handleWebhookCore (fun _ _ => false) true ⟨"POST", .ok [123, 125], []⟩
      = ⟨401, "Unauthorized\n", []⟩
  ∧ handleWebhookCore (fun _ _ => true) true ⟨"POST", .ok [], []⟩
      = ⟨400, "Bad request\n", []⟩
  ∧ handleWebhookCore (fun _ _ => true) false ⟨"POST", .ok [123, 125], []⟩
      = ⟨500, "Internal server error\n", [[123, 125]]⟩
  ∧ handleWebhookCore (fun _ _ => true) true ⟨"POST", .ok [123, 125], []⟩
      = ⟨200, "OK", [[123, 125]]⟩ :=
  ⟨(webhook_pipeline_order _ _ _).1 (by decide),
   (webhook_pipeline_order _ _ _).2.1 "io" rfl rfl,
   (webhook_pipeline_order _ _ _).2.2.1 [123, 125] rfl rfl rfl,
   (webhook_pipeline_order _ _ _).2.2.2.1 [] "invalid JSON" rfl rfl rfl rfl,
   (webhook_pipeline_order _ _ _).2.2.2.2.1 [123, 125] ⟨[], [], none, [], []⟩
     rfl rfl rfl rfl rfl,
   (webhook_pipeline_order _ _ _).2.2.2.2.2 [123, 125] ⟨[], [], none, [], []⟩
     rfl rfl rfl rfl rfl⟩

/-- C3: with an empty configured secret, `verifySignature` accepts every
(payload, signature) pair — in both variants of the service, including the
empty payload and the empty signature. -/
theorem no_secret_accepts_everything (cfg : Hmac.Config) (srv : Rsa.Server)
    (h1 : cfg.WebhookSecret = []) (h2 : srv.config.WebhookSecret = []) :
    (∀ payload sig, Hmac.verifySignature cfg payload sig = true)
  ∧ (∀ payload sig, Rsa.verifySignature srv payload sig = true) := by
  constructor
  · intro payload sig
    simp [Hmac.verifySignature, h1]
  · intro payload sig
    simp [Rsa.verifySignature, h2]

/-- Witness for C3: concrete empty-secret configurations, evaluated at the
empty payload and empty signature. -/
theorem no_secret_accepts_everything_witness :
    Hmac.verifySignature ⟨"8080", "localhost:6379", "starling_events", []⟩ [] [] = true
  ∧ Rsa.verifySignature ⟨⟨"8080", "localhost:6379", "starling_events", [], ""⟩, ⟨1, 1⟩⟩
      [] [] = true :=
  ⟨(no_secret_accepts_everything ⟨"8080", "localhost:6379", "starling_events", []⟩
      ⟨⟨"8080", "localhost:6379", "starling_events", [], ""⟩, ⟨1, 1⟩⟩ rfl rfl).1 [] [],
   (no_secret_accepts_everything ⟨"8080", "localhost:6379", "starling_events", []⟩
      ⟨⟨"8080", "localhost:6379", "starling_events", [], ""⟩, ⟨1, 1⟩⟩ rfl rfl).2 [] []⟩

/-- C4: the handler publishes at most once per request; it publishes
exactly once — with the raw body bytes, never a re-serialisation — when
method, body read, signature and decode all succeed; and it never
publishes when it answers 405, 400 or 401. -/
theorem publish_at_most_once (verify : Bytes → Bytes → Bool) (publishOk : Bool)
    (req : HttpRequest) :
    (handleWebhookCore verify publishOk req).published.length ≤ 1
  ∧ (∀ body ev, req.method = "POST" → req.bodyRead = .ok body →
      verify body req.signature = true → unmarshalEvent body = .ok ev →
      (handleWebhookCore verify publishOk req).published = [body])
  ∧ ((handleWebhookCore verify publishOk req).status = 405 ∨
     (handleWebhookCore verify publishOk req).status = 400 ∨
     (handleWebhookCore verify publishOk req).status = 401 →
      (handleWebhookCore verify publishOk req).published = []) := by
  obtain ⟨m, br, sg⟩ := req
  refine ⟨?_, ?_, ?_⟩
  · by_cases hm : m = "POST"
    · cases br with
      | error e => simp [handleWebhookCore, hm]
      | ok body =>
        by_cases hv : verify body sg
        · cases hj : unmarshalEvent body with
          | error e => simp [handleWebhookCore, hm, hv, hj]
          | ok ev => cases publishOk <;> simp [handleWebhookCore, hm, hv, hj]
        · simp [handleWebhookCore, hm, hv]
    · simp [handleWebhookCore, hm]
  · intro body ev hm hb hv hj
    simp only at hm hb
    subst hm
    subst hb
    simp [handleWebhookCore, hv, hj]
    cases publishOk <;> simp
  · intro h
    by_cases hm : m = "POST"
    · cases br with
      | error e => simp [handleWebhookCore, hm]
      | ok body =>
        by_cases hv : verify body sg
        · cases hj : unmarshalEvent body with
          | error e => simp [handleWebhookCore, hm, hv, hj]
          | ok ev =>
            cases publishOk <;> simp [handleWebhookCore, hm, hv, hj] at h ⊢
        · simp [handleWebhookCore, hm, hv]
    · simp [handleWebhookCore, hm]

/-- Witness for C4: a fully successful request publishes its exact body
once; a signature-rejected request (status 401) publishes nothing. -/
theorem publish_at_most_once_witness :
    (handleWebhookCore (fun _ _ => true) true
       ⟨"POST", .ok [110, 117, 108, 108], []⟩).published = [[110, 117, 108, 108]]
  ∧ (handleWebhookCore (fun _ _ => false) true ⟨"POST", .ok [], [1]⟩).published = [] :=
  ⟨(publish_at_most_once (fun _ _ => true) true
      ⟨"POST", .ok [110, 117, 108, 108], []⟩).2.1 [110, 117, 108, 108]
      ⟨[], [], none, [], []⟩ rfl rfl rfl rfl,
   (publish_at_most_once (fun _ _ => false) true ⟨"POST", .ok [], [1]⟩).2.2
      (Or.inr (Or.inr rfl))⟩

/-- C5: in asymmetric mode with a non-empty secret, `verifySignature` is
total over attacker-controlled input: a signature that is not valid base64
yields the ordinary result `false`, a decoded signature that fails RSA
PKCS#1 v1.5 / SHA-256 verification yields `false`, and the only way to get
`true` is a successful decode followed by a successful verification (the
model is a total function into `Bool`; the Go code returns error values
and never panics on malformed input). -/
theorem rsa_verify_total_malformed_false (srv : Rsa.Server)
    (h : srv.config.WebhookSecret ≠ []) :
    (∀ payload sig, base64Decode sig = none →
      Rsa.verifySignature srv payload sig = false)
  ∧ (∀ payload sig sigBytes, base64Decode sig = some sigBytes →
      Rsa.rsaVerifyPKCS1v15 srv.publicKey (Sha256.hash payload) sigBytes = false →
      Rsa.verifySignature srv payload sig = false)
  ∧ (∀ payload sig, Rsa.verifySignature srv payload sig = true →
      ∃ sigBytes, base64Decode sig = some sigBytes ∧
        Rsa.rsaVerifyPKCS1v15 srv.publicKey (Sha256.hash payload) sigBytes = true) := by
  refine ⟨?_, ?_, ?_⟩
  · intro payload sig hd
    simp [Rsa.verifySignature, h, hd]
  · intro payload sig sigBytes hd hv
    simp [Rsa.verifySignature, h, hd, hv]
  · intro payload sig hv
    simp only [Rsa.verifySignature, if_neg h] at hv
    cases hd : base64Decode sig with
    | none => rw [hd] at hv; simp at hv
    | some b =>
      rw [hd] at hv
      exact ⟨b, rfl, hv⟩

/-- Witness for C5: a non-base64 signature and a decodable but
cryptographically invalid signature both evaluate to `false` on a concrete
key. -/
theorem rsa_verify_total_malformed_false_witness :
    Rsa.verifySignature ⟨⟨"8080", "localhost:6379", "starling_events", [120], ""⟩, ⟨3233, 17⟩⟩
      [] [33, 33, 33] = false
  ∧ Rsa.verifySignature ⟨⟨"8080", "localhost:6379", "starling_events", [120], ""⟩, ⟨3233, 17⟩⟩
      [] [65, 65, 65, 65] = false :=
  ⟨(rsa_verify_total_malformed_false
      ⟨⟨"8080", "localhost:6379", "starling_events", [120], ""⟩, ⟨3233, 17⟩⟩
      (by decide)).1 [] [33, 33, 33] (by decide),
   (rsa_verify_total_malformed_false
      ⟨⟨"8080", "localhost:6379", "starling_events", [120], ""⟩, ⟨3233, 17⟩⟩
      (by decide)).2.1 [] [65, 65, 65, 65] [0, 0, 0] (by decide) (by decide)⟩

/-- C6: the symmetric-mode comparison is `hmac.Equal` over the provided
signature and the expected encoding, and that comparison performs a number
of byte operations that depends only on the input lengths, never on the
position of the first mismatch: for equal-length inputs the instrumented
comparison always traverses every byte. -/
theorem hmac_compare_constant_time :
    (∀ x y : Bytes, x.length = y.length →
      (constantTimeCompareTrace x y).2 = x.length)
  ∧ (∀ x y : Bytes, (constantTimeCompareTrace x y).1 = constantTimeCompare x y)
  ∧ (∀ (cfg : Hmac.Config) (payload sig : Bytes), cfg.WebhookSecret ≠ [] →
      Hmac.verifySignature cfg payload sig =
        constantTimeCompare sig (base64Encode (hmacSha512 cfg.WebhookSecret payload))) :=
  ⟨fun x y h => ctTrace_steps x y h,
   fun x y => ctTrace_fst x y,
   fun cfg payload sig h => by simp [Hmac.verifySignature, h]⟩

/-- Witness for C6: same-length inputs differing in the first byte and in
the last byte take the same number of byte operations, and the mode
equation evaluated on a concrete non-empty secret. -/
theorem hmac_compare_constant_time_witness :
    (constantTimeCompareTrace [0, 1, 2, 3] [9, 1, 2, 3]).2 = 4
  ∧ (constantTimeCompareTrace [0, 1, 2, 3] [0, 1, 2, 9]).2 = 4
  ∧ (constantTimeCompareTrace [0, 1] [0, 2]).1 = constantTimeCompare [0, 1] [0, 2]
  ∧ Hmac.verifySignature ⟨"8080", "localhost:6379", "starling_events", [7]⟩ [] [] =
      constantTimeCompare [] (base64Encode (hmacSha512 [7] [])) :=
  ⟨hmac_compare_constant_time.1 [0, 1, 2, 3] [9, 1, 2, 3] rfl,
   hmac_compare_constant_time.1 [0, 1, 2, 3] [0, 1, 2, 9] rfl,
   hmac_compare_constant_time.2.1 [0, 1] [0, 2],
   hmac_compare_constant_time.2.2 ⟨"8080", "localhost:6379", "starling_events", [7]⟩
     [] [] (by decide)⟩

/-- C7: in the asymmetric variant, invalid key material is fatal at
startup: if the configured secret is not valid base64, or its decoding
does not parse as a PKIX public key, or it parses as a non-RSA key, then
`initialiseKey` returns an error and `main` reaches `log.Fatalf` — no
serving state is ever entered, whatever the Redis connection outcome. -/
theorem invalid_key_material_is_fatal (cfg : Rsa.Config) (redisOk : Bool)
    (h : base64Decode cfg.WebhookSecret = none
       ∨ (∃ der e, base64Decode cfg.WebhookSecret = some der ∧
            Rsa.parsePKIXPublicKey der = .error e)
       ∨ (∃ der, base64Decode cfg.WebhookSecret = some der ∧
            Rsa.parsePKIXPublicKey der = .ok .other)) :
    (∃ msg, Rsa.initialiseKey cfg = .error msg)
  ∧ ∀ srv, Rsa.mainStartup cfg redisOk ≠ Rsa.StartupOutcome.serving srv := by
  have hinit : ∃ msg, Rsa.initialiseKey cfg = .error msg := by
    rcases h with hd | ⟨der, e, hd, hp⟩ | ⟨der, hd, hp⟩
    · exact ⟨"illegal base64 data", by simp [Rsa.initialiseKey, hd]⟩
    · exact ⟨e, by simp [Rsa.initialiseKey, hd, hp]⟩
    · exact ⟨"not an RSA public key", by simp [Rsa.initialiseKey, hd, hp]⟩
  refine ⟨hinit, ?_⟩
  intro srv
  obtain ⟨msg, hmsg⟩ := hinit
  cases redisOk <;> simp [Rsa.mainStartup, hmsg]

/-- Witness for C7: a secret that is not valid base64 is fatal. -/
theorem invalid_key_material_is_fatal_witness :
    (∃ msg, Rsa.initialiseKey ⟨"8080", "localhost:6379", "starling_events", [33], ""⟩
       = .error msg)
  ∧ ∀ srv, Rsa.mainStartup ⟨"8080", "localhost:6379", "starling_events", [33], ""⟩ true
       ≠ Rsa.StartupOutcome.serving srv :=
  invalid_key_material_is_fatal ⟨"8080", "localhost:6379", "starling_events", [33], ""⟩
    true (Or.inl rfl)

/-- C8: every health request issues exactly one bus ping bounded by the
2-second context timeout; a successful ping answers 200 with body `OK`,
an error or a timeout answers 503; and the handler performs no other side
effect (no publish call). -/
theorem health_ping_contract (ping : PingOutcome) :
    (ping = .ok → handleHealth ping = ⟨200, "OK", [2], []⟩)
  ∧ (ping ≠ .ok → handleHealth ping = ⟨503, "Service unavailable\n", [2], []⟩)
  ∧ (handleHealth ping).pingTimeouts = [2]
  ∧ (handleHealth ping).published = [] := by
  cases ping <;> simp [handleHealth]

/-- Witness for C8: the three ping outcomes evaluated. -/
theorem health_ping_contract_witness :
    handleHealth .ok = ⟨200, "OK", [2], []⟩
  ∧ handleHealth .err = ⟨503, "Service unavailable\n", [2], []⟩
  ∧ handleHealth .timeout = ⟨503, "Service unavailable\n", [2], []⟩ :=
  ⟨(health_ping_contract .ok).1 rfl,
   (health_ping_contract .err).2.1 (by decide),
   (health_ping_contract .timeout).2.1 (by decide)⟩

/-- C9: in symmetric mode with a non-empty secret, verification succeeds
exactly when the provided header value is byte-for-byte the standard
padded base64 encoding of HMAC-SHA512(secret, payload); the provided
signature is never base64-decoded, so any other textual representation of
the correct MAC bytes is rejected. -/
theorem hmac_verify_iff_exact_encoding (cfg : Hmac.Config) (payload sig : Bytes)
    (h : cfg.WebhookSecret ≠ []) :
    Hmac.verifySignature cfg payload sig = true ↔
      sig = base64Encode (hmacSha512 cfg.WebhookSecret payload) := by
  simp only [Hmac.verifySignature, if_neg h]
  exact constantTimeCompare_eq_true_iff _ _

/-- Witness for C9: the exact encoding is accepted on a concrete secret. -/
theorem hmac_verify_iff_exact_encoding_witness :
    Hmac.verifySignature
      ⟨"8080", "localhost:6379", "starling_events",
        [116, 101, 115, 116, 45, 115, 101, 99, 114, 101, 116]⟩ []
      (base64Encode
        (hmacSha512 [116, 101, 115, 116, 45, 115, 101, 99, 114, 101, 116] [])) = true :=
  (hmac_verify_iff_exact_encoding
    ⟨"8080", "localhost:6379", "starling_events",
      [116, 101, 115, 116, 45, 115, 101, 99, 114, 101, 116]⟩ []
    (base64Encode
      (hmacSha512 [116, 101, 115, 116, 45, 115, 101, 99, 114, 101, 116] []))
    (by decide)).mpr rfl

/-- C10: the decode step enforces no required fields — the empty object
and the literal `null` both unmarshal successfully into the zero-valued
envelope (all string fields empty, no content) — and any body that
unmarshals successfully on a signature-verified POST request is published
raw and answered 200 `OK`. -/
theorem decode_no_required_fields :
    unmarshalEvent [123, 125] = .ok ⟨[], [], none, [], []⟩
  ∧ unmarshalEvent [110, 117, 108, 108] = .ok ⟨[], [], none, [], []⟩
  ∧ (∀ (verify : Bytes → Bytes → Bool) (req : HttpRequest) (body : Bytes)
       (ev : WebhookEvent),
      req.method = "POST" → req.bodyRead = .ok body →
      verify body req.signature = true → unmarshalEvent body = .ok ev →
      handleWebhookCore verify true req = ⟨200, "OK", [body]⟩) := by
  refine ⟨rfl, rfl, ?_⟩
  intro verify req body ev hm hb hv hj
  simp [handleWebhookCore, hm, hb, hv, hj]

/-- Witness for C10: a signature-verified POST carrying the body `null` is
published raw and answered 200. -/
theorem decode_no_required_fields_witness :
    handleWebhookCore (fun _ _ => true) true ⟨"POST", .ok [110, 117, 108, 108], [5]⟩
      = ⟨200, "OK", [[110, 117, 108, 108]]⟩ :=
  decode_no_required_fields.2.2 (fun _ _ => true)
    ⟨"POST", .ok [110, 117, 108, 108], [5]⟩ [110, 117, 108, 108]
    ⟨[], [], none, [], []⟩ rfl rfl rfl rfl

/-! ### Concrete vectors tying the crypto models to their references -/

/-- FIPS 180-4 test vector: SHA-512 of the message `abc`. -/
theorem sha512_abc_vector :
    Sha512.hash [97, 98, 99] =
      [221, 175, 53, 161, 147, 97, 122, 186, 204, 65, 115, 73,
       174, 32, 65, 49, 18, 230, 250, 78, 137, 169, 126, 162,
       10, 158, 238, 230, 75, 85, 211, 154, 33, 146, 153, 42,
       39, 79, 193, 168, 54, 186, 60, 35, 163, 254, 235, 189,
       69, 77, 68, 35, 100, 60, 232, 14, 42, 154, 201, 79,
       165, 76, 164, 159] := by decide

/-- FIPS 180-4 test vector: SHA-256 of the empty message. -/
theorem sha256_empty_vector :
    Sha256.hash [] =
      [227, 176, 196, 66, 152, 252, 28, 20, 154, 251, 244, 200,
       153, 111, 185, 36, 39, 174, 65, 228, 100, 155, 147, 76,
       164, 149, 153, 27, 120, 82, 184, 85] := by decide

/-- The repository test suite's vector: the base64-encoded HMAC-SHA512 of
the payload containing `eventType TEST` under secret `test-secret` is
accepted by the symmetric verifier. -/
theorem go_test_vector_accepted :
    Hmac.verifySignature
      ⟨"8080", "localhost:6379", "starling_events",
        [116, 101, 115, 116, 45, 115, 101, 99, 114, 101, 116]⟩
      [123, 34, 101, 118, 101, 110, 116, 84, 121, 112, 101, 34, 58, 34, 84,
       69, 83, 84, 34, 125]
      ("1abJ+0a3XbjsqMhMjDkLorBZ8yEukxoOx8Dr38fDgZtCvKsg8IkCVqn/RlSSfIVBYc0C1hXDpcAnVHrLlFckNQ==".toList.map Char.toNat)
      = true := by decide
